import Mathlib

/-!
Shallow embedding of the bookkeeping report generator (models.py, utils.py,
routes.py): the data model, the ingestion pipeline `process_excel_data`, the
three aggregators `get_ledger_data`, `get_special_report_data`,
`get_trial_balance_data`, and the replace semantics of the `upload_file`
route.  Monetary amounts are modelled as rationals, dates as explicit
year/month/day records, pandas cells as an explicit variant type, and the
SQLAlchemy session as a pure state-passing function whose error branch
returns the state at the last commit point.  The Python string primitives
(upper, strip, split, the lexicographic ordering used by SQL ORDER BY) are
modelled on the character lists of the strings so that every definition
evaluates on concrete inputs.
-/

attribute [local semireducible] Rat.add Rat.sub Rat.mul Rat.inv

namespace FAS

/-- Model of the Python upper method (ASCII case mapping). -/
def pyUpper (s : String) : String := String.mk (s.data.map Char.toUpper)

/-- Model of the Python strip method: remove whitespace from both ends. -/
def pyStrip (s : String) : String :=
  String.mk (((s.data.dropWhile Char.isWhitespace).reverse.dropWhile
    Char.isWhitespace).reverse)

/-- Splitting a character list at a separator character, as the Python
split method does with a one-character separator. -/
def splitChar (sep : Char) : List Char → List (List Char)
  | [] => [[]]
  | c :: rest =>
    match splitChar sep rest with
    | [] => [[c]]
    | g :: gs => if c == sep then [] :: g :: gs else (c :: g) :: gs

/-- Model of the Python split method at the slash separator, as used on the
period argument. -/
def pySplitSlash (s : String) : List String :=
  (splitChar '/' s.data).map String.mk

/-- Join strings with a separator, as the Python join method does in the
missing-columns error message. -/
def joinSep (sep : String) : List String → String
  | [] => ""
  | [x] => x
  | x :: xs => x ++ sep ++ joinSep sep xs

/-- Strict lexicographic comparison of character lists by code point; this
is the ordering SQL uses for ORDER BY on the stored text columns. -/
def charListLt : List Char → List Char → Bool
  | _, [] => false
  | [], _ :: _ => true
  | a :: as, b :: bs =>
    a.toNat < b.toNat || (a.toNat == b.toNat && charListLt as bs)

/-- The ordering on strings used by the SQL ORDER BY clauses. -/
def StrLe (a b : String) : Prop := charListLt b.data a.data = false

instance : DecidableRel StrLe := fun a b => by unfold StrLe; infer_instance

/-- Calendar date as stored in the `Transaction.date` column. -/
structure Date where
  year : Nat
  month : Nat
  day : Nat
deriving DecidableEq, Repr

/-- Chronological (equivalently lexicographic, for the stored ISO form)
comparison on dates, as used by `ORDER BY Transaction.date`. -/
def Date.le (a b : Date) : Prop :=
  a.year < b.year ∨ (a.year = b.year ∧
    (a.month < b.month ∨ (a.month = b.month ∧ a.day ≤ b.day)))

instance : DecidableRel Date.le := fun a b => by unfold Date.le; infer_instance

/-- Day number of a date in the proleptic Gregorian calendar (civil-from-days
algorithm); differences of this function model the `.days` of a Python date
subtraction. -/
def Date.toDays (dt : Date) : Nat :=
  let y := if dt.month ≤ 2 then dt.year - 1 else dt.year
  let era := y / 400
  let yoe := y % 400
  let mp := (dt.month + 9) % 12
  let doy := (153 * mp + 2) / 5 + dt.day - 1
  let doe := yoe * 365 + yoe / 4 - yoe / 100 + doy
  era * 146097 + doe

/-- Zero-pad a natural number to a given width, as `strftime` does. -/
def padNum (w : Nat) (n : Nat) : String :=
  let s := toString n
  String.mk (List.replicate (w - s.length) '0') ++ s

/-- The `formatted_date` property of the Transaction model: strftime with
the DD/MM/YYYY pattern. -/
def formatDate (d : Date) : String :=
  padNum 2 d.day ++ "/" ++ padNum 2 d.month ++ "/" ++ padNum 4 d.year

/-- Stored accounting transaction (the Transaction model). -/
structure Transaction where
  date : Date
  head_of_account : String
  category : String
  description : String
  reference : String
  debit : ℚ
  credit : ℚ
  company_id : Nat
deriving DecidableEq, Repr

/-- Comparison used by `order_by(Transaction.date, Transaction.id)`: the
stored list is kept in id (insertion) order, so the id tie-break is exactly
the stability of the sort by date. -/
def TxLe (a b : Transaction) : Prop := Date.le a.date b.date

instance : DecidableRel TxLe := fun a b => by unfold TxLe; infer_instance

/-- One output row of `get_ledger_data`. -/
structure LedgerRow where
  date : String
  description : String
  reference : String
  debit : ℚ
  credit : ℚ
  balance : ℚ
  days : Int
deriving DecidableEq, Repr

/-- The accumulation loop of `get_ledger_data`: running balance threaded
through the date-ordered transactions, each row also carrying the age in
days relative to the query-time date. -/
def ledgerRows (today : Date) (balance : ℚ) : List Transaction → List LedgerRow
  | [] => []
  | t :: ts =>
    let b := balance + (t.debit - t.credit)
    { date := formatDate t.date
      description := t.description
      reference := t.reference
      debit := t.debit
      credit := t.credit
      balance := b
      days := (today.toDays : Int) - (t.date.toDays : Int) } :: ledgerRows today b ts

/-- The selection filter of `get_ledger_data`: company match, and the
uppercased stored head equals the uppercase of the stripped query. -/
def ledgerMatch (companyId : Nat) (normalizedHead : String) (t : Transaction) : Bool :=
  t.company_id == companyId && pyUpper t.head_of_account == normalizedHead

/-- Model of `get_ledger_data`: filter by company and case-insensitive match
against the stripped query, order by date (stably, which is the id
tie-break of the ORDER BY), then decorate with the running balance and the
age in days. -/
def get_ledger_data (txs : List Transaction) (companyId : Nat)
    (headOfAccount : String) (today : Date) : List LedgerRow :=
  let normalizedHead := pyUpper (pyStrip headOfAccount)
  let selected := txs.filter (ledgerMatch companyId normalizedHead)
  ledgerRows today 0 (selected.insertionSort TxLe)

/-- Sum of the debit column over the transactions with exactly the given
stored head, as computed by the grouped totals queries. -/
def sumDebit (txs : List Transaction) (h : String) : ℚ :=
  ((txs.filter (fun t => t.head_of_account == h)).map (fun t => t.debit)).sum

/-- Sum of the credit column over the transactions with exactly the given
stored head. -/
def sumCredit (txs : List Transaction) (h : String) : ℚ :=
  ((txs.filter (fun t => t.head_of_account == h)).map (fun t => t.credit)).sum

/-- One output row of `get_special_report_data`. -/
structure ReportRow where
  head_of_account : String
  debit : ℚ
  credit : ℚ
  balance : ℚ
deriving DecidableEq, Repr

/-- The per-head totals query of `get_special_report_data`: total debit over
all transactions of the company with that exact head — note, not filtered
by category. -/
def reportDebit (txs : List Transaction) (companyId : Nat) (h : String) : ℚ :=
  sumDebit (txs.filter (fun t => t.company_id == companyId)) h

/-- The per-head total credit over all transactions of the company with
that exact head — not filtered by category. -/
def reportCredit (txs : List Transaction) (companyId : Nat) (h : String) : ℚ :=
  sumCredit (txs.filter (fun t => t.company_id == companyId)) h

/-- Balance of a head over the whole company: total debit minus total
credit. -/
def reportBalance (txs : List Transaction) (companyId : Nat) (h : String) : ℚ :=
  reportDebit txs companyId h - reportCredit txs companyId h

/-- One emitted row of the category report for a given head: the totals
over the whole company and their difference. -/
def reportRowOf (txs : List Transaction) (companyId : Nat) (h : String) : ReportRow :=
  { head_of_account := h, debit := reportDebit txs companyId h,
    credit := reportCredit txs companyId h,
    balance := reportBalance txs companyId h }

/-- Model of `get_special_report_data`: the heads query selects the distinct
nonempty heads of the company transactions whose category matches exactly,
sorted ascending; the totals query for each head then sums debit and credit
over all transactions of the company with that exact head, with no category
filter; zero-balance rows are skipped. -/
def get_special_report_data (txs : List Transaction) (companyId : Nat)
    (category : String) : List ReportRow :=
  let catTxs := txs.filter (fun t =>
    t.company_id == companyId && t.category == category && t.head_of_account != "")
  let heads := ((catTxs.map (fun t => t.head_of_account)).dedup).insertionSort StrLe
  heads.filterMap (fun h =>
    if reportBalance txs companyId h ≠ 0 then some (reportRowOf txs companyId h)
    else none)

/-- One output row of `get_trial_balance_data`. -/
structure TBRow where
  head_of_account : String
  debit : ℚ
  credit : ℚ
  is_total : Bool := false
  is_difference : Bool := false
deriving DecidableEq, Repr

/-- Digit-string to number, for the models of the Python numeric
constructors. -/
def digitsToNat (cs : List Char) : Nat :=
  cs.foldl (fun acc c => acc * 10 + (c.toNat - 48)) 0

/-- Model of the Python int constructor on strings: surrounding whitespace
is stripped, an optional sign is allowed, and the remainder must be a
nonempty digit string. -/
def pyIntParse (s : String) : Option Int :=
  let cs := (pyStrip s).data
  let signed : Int × List Char :=
    match cs with
    | '-' :: t => (-1, t)
    | '+' :: t => (1, t)
    | _ => (1, cs)
  if signed.2.isEmpty then none
  else if signed.2.all Char.isDigit then some (signed.1 * digitsToNat signed.2)
  else none

/-- Parse of the period argument of `get_trial_balance_data`: the sentinel
string all means no filter; otherwise the period is split on the slash,
unpacked into exactly two parts, and each part converted with int — any
failure raises. -/
def periodFilter (period : String) : Except String (Option (Int × Int)) :=
  if period = "all" then .ok none
  else
    match pySplitSlash period with
    | [m, y] =>
      match pyIntParse m, pyIntParse y with
      | some mi, some yi => .ok (some (mi, yi))
      | _, _ => .error "invalid literal for int with base 10"
    | _ => .error "cannot unpack period"

/-- Whether a transaction falls in the selected period (month and year
extracted from the date, compared to the parsed period numbers). -/
def inPeriod (pf : Option (Int × Int)) (t : Transaction) : Bool :=
  match pf with
  | none => true
  | some (m, y) => ((t.date.month : Int) == m) && ((t.date.year : Int) == y)

/-- The per-account row of the trial balance: a positive balance shown
entirely in the debit column, a negative one entirely (negated) in the
credit column. -/
def tbRowOf (g : String × ℚ × ℚ) : TBRow :=
  let balance := g.2.1 - g.2.2
  { head_of_account := g.1,
    debit := if balance > 0 then balance else 0,
    credit := if balance > 0 then 0 else -balance }

/-- The TOTAL row appended at the end of every trial balance. -/
def totalRow (total_debit total_credit : ℚ) : TBRow :=
  { head_of_account := "TOTAL", debit := total_debit, credit := total_credit,
    is_total := true }

/-- The DIFFERENCE row appended when the emitted columns do not balance:
the positive excess in the debit column when total debit exceeds total
credit, otherwise in the credit column. -/
def differenceRow (total_debit total_credit : ℚ) : TBRow :=
  { head_of_account := "DIFFERENCE",
    debit := if total_debit - total_credit > 0 then total_debit - total_credit else 0,
    credit := if total_debit - total_credit < 0 then -(total_debit - total_credit) else 0,
    is_difference := true }

/-- The result loop of `get_trial_balance_data`: for each grouped head with
its summed debit and credit, emit a row when the balance is nonzero, the
positive balance in the debit column and the negative one (negated) in the
credit column, while accumulating the totals of the two emitted columns. -/
def tbLoop : List (String × ℚ × ℚ) → List TBRow × ℚ × ℚ
  | [] => ([], 0, 0)
  | g :: gs =>
    let rest := tbLoop gs
    if g.2.1 - g.2.2 = 0 then rest
    else (tbRowOf g :: rest.1,
      (tbRowOf g).debit + rest.2.1, (tbRowOf g).credit + rest.2.2)

/-- The base selection of the trial balance: transactions of the company
with a nonempty head, restricted to the parsed period when one is given. -/
def tbRows (txs : List Transaction) (companyId : Nat)
    (pf : Option (Int × Int)) : List Transaction :=
  txs.filter (fun t =>
    t.company_id == companyId && t.head_of_account != "" && inPeriod pf t)

/-- Per-head balance of the trial balance base selection. -/
def tbBalance (rows : List Transaction) (h : String) : ℚ :=
  sumDebit rows h - sumCredit rows h

/-- The distinct heads of the base selection, sorted ascending (the GROUP
BY with ORDER BY of the trial balance query). -/
def tbHeads (rows : List Transaction) : List String :=
  ((rows.map (fun t => t.head_of_account)).dedup).insertionSort StrLe

/-- The grouped rows of the trial balance query: each distinct head with
its summed debit and credit. -/
def tbGrouped (rows : List Transaction) : List (String × ℚ × ℚ) :=
  (tbHeads rows).map (fun h => (h, sumDebit rows h, sumCredit rows h))

/-- Model of `get_trial_balance_data`: parse the period (raising on a
malformed one), filter the company transactions with nonempty head and in
the period, group by head with summed debit and credit sorted by head, emit
nonzero-balance rows with the running totals, append the TOTAL row, and
append a DIFFERENCE row when the totals differ. -/
def get_trial_balance_data (txs : List Transaction) (companyId : Nat)
    (period : String) : Except String (List TBRow) :=
  match periodFilter period with
  | .error e => .error e
  | .ok pf =>
    let step := tbLoop (tbGrouped (tbRows txs companyId pf))
    let withTotal := step.1 ++ [totalRow step.2.1 step.2.2]
    .ok (if step.2.1 - step.2.2 ≠ 0 then
      withTotal ++ [differenceRow step.2.1 step.2.2]
    else withTotal)

/-- A spreadsheet cell as seen after pandas reads the sheet: missing (NaN),
numeric, or text. -/
inductive Cell where
  | nan : Cell
  | num : ℚ → Cell
  | str : String → Cell
deriving DecidableEq, Repr

/-- Model of `fillna(0.0)` on the debit and credit columns. -/
def fillCell : Cell → Cell
  | .nan => .num 0
  | c => c

/-- Model of `fillna` with the empty string on the text columns. -/
def fillStr : Option String → String
  | none => ""
  | some s => s

/-- Model of the Python float constructor on strings: surrounding
whitespace is stripped, an optional sign is allowed, and the remainder must
be a digit string with at most one decimal point and at least one digit;
anything else raises. -/
def pyFloatParse (s : String) : Option ℚ :=
  let cs := (pyStrip s).data
  let signed : ℚ × List Char :=
    match cs with
    | '-' :: t => (-1, t)
    | '+' :: t => (1, t)
    | _ => (1, cs)
  let ip := signed.2.takeWhile Char.isDigit
  match signed.2.dropWhile Char.isDigit with
  | [] => if ip.isEmpty then none else some (signed.1 * digitsToNat ip)
  | '.' :: fp =>
    if fp.all Char.isDigit && !(ip.isEmpty && fp.isEmpty) then
      some (signed.1 * ((digitsToNat ip : ℚ) + digitsToNat fp / 10 ^ fp.length))
    else none
  | _ => none

/-- Model of the expression form used for the debit and credit cells,
applied after `fillna`: a falsy value (numeric zero or the empty string) is
replaced by 0 before the float conversion, a numeric cell passes through,
and a nonempty text cell is converted by the float constructor, raising on
failure. -/
def floatOfCell : Cell → Option ℚ
  | .nan => some 0
  | .num q => some q
  | .str s => if s = "" then some 0 else pyFloatParse s

/-- One raw spreadsheet row after the pandas preprocessing of
`process_excel_data`: the date has already gone through the coercing
to-datetime (`none` is NaT, covering both a missing and an unparseable
cell), the head is `none` when the cell is missing, and the optional text
columns are `none` when missing. -/
structure RawRow where
  date : Option Date := none
  head_of_account : Option String := none
  category : Option String := none
  description : Option String := none
  reference : Option String := none
  debit : Cell := .nan
  credit : Cell := .nan
deriving DecidableEq, Repr

/-- An uploaded spreadsheet: the header names present, and the data rows. -/
structure ExcelFile where
  columns : List String
  rows : List RawRow
deriving DecidableEq, Repr

/-- The required columns of `process_excel_data`. -/
def requiredColumns : List String := ["Date", "Head of Accounts", "Debit", "Credit"]

/-- The row filter: `dropna` on the date and head columns keeps exactly the
rows where both are present (pre-strip; an empty-string head survives). -/
def keptRow (r : RawRow) : Bool := r.date.isSome && r.head_of_account.isSome

/-- Lookup in the association-list model of the Python dict used for the
head-of-account normalization map. -/
def dictLookup (m : List (String × String)) (k : String) : Option String :=
  (m.find? (fun e => e.1 == k)).map (fun e => e.2)

/-- First pass of `process_excel_data`: walk the filtered rows in file
order and record, for the uppercase of each stripped head, the first-seen
stripped spelling. -/
def buildMap (m : List (String × String)) : List RawRow → List (String × String)
  | [] => m
  | r :: rs =>
    match r.head_of_account with
    | some h =>
      if h ≠ "" then
        let head := pyStrip h
        let key := pyUpper head
        if (dictLookup m key).isSome then buildMap m rs
        else buildMap (m ++ [(key, head)]) rs
      else buildMap m rs
    | none => buildMap m rs

/-- A transaction as constructed by the ingestion loop, before the company
id is attached by the session. -/
structure TxData where
  date : Date
  head_of_account : String
  category : String
  description : String
  reference : String
  debit : ℚ
  credit : ℚ
deriving DecidableEq, Repr

/-- Attach the owning company to an ingested row. -/
def TxData.toTransaction (t : TxData) (companyId : Nat) : Transaction :=
  { date := t.date, head_of_account := t.head_of_account,
    category := t.category, description := t.description,
    reference := t.reference, debit := t.debit, credit := t.credit,
    company_id := companyId }

/-- Second pass of `process_excel_data`: for each filtered row with a head
that is present and not the empty string, build a transaction whose head is
the canonical spelling from the normalization map and whose debit and
credit are the coerced cell values; a failing float conversion aborts the
whole run. The date is known present on filtered rows. -/
def convertRows (m : List (String × String)) : List RawRow → Except String (List TxData)
  | [] => .ok []
  | r :: rs =>
    match r.head_of_account with
    | some h =>
      if h = "" then convertRows m rs
      else
        match floatOfCell (fillCell r.debit), floatOfCell (fillCell r.credit) with
        | some d, some c =>
          (convertRows m rs).map (fun ts =>
            { date := r.date.getD ⟨0, 0, 0⟩
              head_of_account := (dictLookup m (pyUpper (pyStrip h))).getD ""
              category := fillStr r.category
              description := fillStr r.description
              reference := fillStr r.reference
              debit := d, credit := c } :: ts)
        | _, _ => .error "could not convert string to float"
    | none => convertRows m rs

/-- Model of `process_excel_data`: check the required columns, filter out
rows with a missing date or head, build the case-insensitive normalization
map, then convert the rows; the count reported by the source is the length
of the returned list. -/
def process_excel_data (f : ExcelFile) : Except String (List TxData) :=
  let missing := requiredColumns.filter (fun c => !(f.columns.contains c))
  if missing ≠ [] then
    .error ("Failed to process Excel data: Missing required columns: " ++
      joinSep ", " missing)
  else
    match convertRows (buildMap [] (f.rows.filter keptRow)) (f.rows.filter keptRow) with
    | .ok ts => .ok ts
    | .error e => .error ("Failed to process Excel data: " ++ e)

/-- The stored source file of a company (the CompanyFile model; the blob is
kept as the parsed sheet, which is irrelevant to aggregation). -/
structure CFile where
  filename : String
  file_data : ExcelFile
  company_id : Nat
deriving DecidableEq, Repr

/-- The persistent store: companies with their ids, the transactions in
insertion order, and the stored source files. -/
structure DBState where
  companies : List (Nat × String)
  transactions : List Transaction
  files : List CFile
deriving DecidableEq, Repr

/-- Fresh primary key for a newly created company. -/
def freshCompanyId (st : DBState) : Nat :=
  (st.companies.map (fun c => c.1)).foldl max 0 + 1

/-- Model of the `upload_file` route past its password and extension
checks.  For an existing company name the prior transactions are deleted,
the prior stored file replaced and the new rows inserted, all in one unit
that rolls back together on failure; for a new name the company row is
created and committed first, so it persists even when the processing then
fails. The returned count is the number of rows inserted. -/
def upload_file (st : DBState) (companyName fileName : String) (f : ExcelFile) :
    DBState × Except String Nat :=
  match st.companies.find? (fun c => c.2 == companyName) with
  | some c =>
    match process_excel_data f with
    | .error e => (st, .error e)
    | .ok ts =>
      ({ st with
          transactions := st.transactions.filter (fun t => t.company_id ≠ c.1) ++
            ts.map (fun t => t.toTransaction c.1)
          files := st.files.filter (fun cf => cf.company_id ≠ c.1) ++
            [{ filename := fileName, file_data := f, company_id := c.1 }] },
        .ok ts.length)
  | none =>
    let cid := freshCompanyId st
    let st1 := { st with companies := st.companies ++ [(cid, companyName)] }
    match process_excel_data f with
    | .error e => (st1, .error e)
    | .ok ts =>
      ({ st1 with
          transactions := st1.transactions ++ ts.map (fun t => t.toTransaction cid)
          files := st1.files ++ [{ filename := fileName, file_data := f, company_id := cid }] },
        .ok ts.length)

/-- Whether a period string consists of exactly two slash-separated fields
that the int constructor accepts; the source never checks this before
splitting and converting. -/
def validPeriod (p : String) : Bool :=
  match pySplitSlash p with
  | [m, y] => (pyIntParse m).isSome && (pyIntParse y).isSome
  | _ => false

section Helpers

lemma charListLt_trans : ∀ as bs cs : List Char,
    charListLt as bs → charListLt bs cs → charListLt as cs := by
  intro as
  induction as with
  | nil =>
    intro bs cs hab hbc
    cases bs with
    | nil => simp [charListLt] at hab
    | cons b bs =>
      cases cs with
      | nil => simp [charListLt] at hbc
      | cons c cs => simp [charListLt]
  | cons a as ih =>
    intro bs cs hab hbc
    cases bs with
    | nil => simp [charListLt] at hab
    | cons b bs =>
      cases cs with
      | nil => simp [charListLt] at hbc
      | cons c cs =>
        simp only [charListLt, Bool.or_eq_true, Bool.and_eq_true, beq_iff_eq,
          decide_eq_true_eq] at hab hbc ⊢
        rcases hab with h1 | ⟨h1, h2⟩ <;> rcases hbc with h3 | ⟨h3, h4⟩
        · exact Or.inl (by omega)
        · exact Or.inl (by omega)
        · exact Or.inl (by omega)
        · exact Or.inr ⟨by omega, ih bs cs h2 h4⟩

lemma charListLt_asymm : ∀ as bs : List Char,
    charListLt as bs → charListLt bs as → False := by
  intro as
  induction as with
  | nil =>
    intro bs hab hba
    cases bs with
    | nil => simp [charListLt] at hab
    | cons b bs => simp [charListLt] at hba
  | cons a as ih =>
    intro bs hab hba
    cases bs with
    | nil => simp [charListLt] at hab
    | cons b bs =>
      simp only [charListLt, Bool.or_eq_true, Bool.and_eq_true, beq_iff_eq,
        decide_eq_true_eq] at hab hba
      rcases hab with h1 | ⟨h1, h2⟩ <;> rcases hba with h3 | ⟨h3, h4⟩
      · omega
      · omega
      · omega
      · exact ih bs h2 h4

lemma charListLt_connex : ∀ as bs : List Char,
    charListLt as bs = false → charListLt bs as = false → as = bs := by
  intro as
  induction as with
  | nil =>
    intro bs hab _
    cases bs with
    | nil => rfl
    | cons b bs => simp [charListLt] at hab
  | cons a as ih =>
    intro bs hab hba
    cases bs with
    | nil => simp [charListLt] at hba
    | cons b bs =>
      simp only [charListLt, Bool.or_eq_false_iff, Bool.and_eq_false_iff,
        decide_eq_false_iff_not, beq_eq_false_iff_ne, ne_eq, not_lt] at hab hba
      have hn : a.toNat = b.toNat := by omega
      have ha : a = b := Char.eq_of_val_eq (UInt32.toNat.inj hn)
      subst ha
      rcases hab.2 with h | h
      · exact absurd hn h
      · rcases hba.2 with h2 | h2
        · exact absurd hn h2
        · exact congrArg (a :: ·) (ih bs h h2)

instance : IsTrans String StrLe :=
  ⟨fun a b c hab hbc => by
    unfold StrLe at *
    by_cases hca : charListLt c.data a.data
    · by_cases hbc2 : charListLt b.data c.data
      · exact absurd (charListLt_trans _ _ _ hbc2 (by simpa using hca))
          (by simp [hab])
      · have : b.data = c.data := charListLt_connex _ _
          (by simpa using hbc2) hbc
        rw [← this] at hca
        simp [hca] at hab
    · simpa using hca⟩

instance : IsTotal String StrLe :=
  ⟨fun a b => by
    unfold StrLe
    by_cases h : charListLt b.data a.data
    · right
      rcases hba : charListLt a.data b.data with _ | _
      · rfl
      · exact absurd (charListLt_asymm _ _ hba h) (fun x => x)
    · left
      simpa using h⟩

instance : IsTrans Transaction TxLe :=
  ⟨fun a b c hab hbc => by unfold TxLe Date.le at *; omega⟩

instance : IsTotal Transaction TxLe :=
  ⟨fun a b => by unfold TxLe Date.le; omega⟩

lemma TxLe_refl (a : Transaction) : TxLe a a := by
  unfold TxLe Date.le; omega

lemma filterMap_ite {α β : Type} (l : List α) (p : α → Prop) [DecidablePred p]
    (g : α → β) :
    (l.filterMap fun a => if p a then some (g a) else none) =
      (l.filter fun a => decide (p a)).map g := by
  induction l with
  | nil => rfl
  | cons a l ih =>
    by_cases h : p a <;> simp [List.filterMap_cons, List.filter_cons, h, ih]

lemma le_foldl_max_init : ∀ (l : List Nat) (a : Nat), a ≤ l.foldl max a := by
  intro l
  induction l with
  | nil => intro a; exact le_refl a
  | cons b l ih => intro a; exact le_trans (le_max_left a b) (ih (max a b))

lemma foldl_max_le {l : List Nat} {x : Nat} (hx : x ∈ l) :
    ∀ a, x ≤ l.foldl max a := by
  induction l with
  | nil => cases hx
  | cons b l ih =>
    intro a
    rcases List.mem_cons.mp hx with rfl | hx2
    · exact le_trans (le_max_right a x) (le_foldl_max_init l (max a x))
    · exact ih hx2 (max a b)

end Helpers

section ClaimC10

/-- C10: the trial balance aggregator is partial in its period argument:
any period other than the sentinel that does not split into exactly two
int-convertible fields makes the function raise instead of returning rows;
the MM/YYYY precondition is never validated. -/
theorem c10_period_partiality (txs : List Transaction) (companyId : Nat)
    (period : String) (hall : period ≠ "all") (hvalid : validPeriod period = false) :
    ∃ e, get_trial_balance_data txs companyId period = .error e := by
  have hpf : ∃ e, periodFilter period = .error e := by
    unfold periodFilter
    rw [if_neg hall]
    unfold validPeriod at hvalid
    rcases hsplit : pySplitSlash period with _ | ⟨m, tail⟩
    · exact ⟨_, rfl⟩
    · rcases tail with _ | ⟨y, tail2⟩
      · exact ⟨_, rfl⟩
      · rcases tail2 with _ | ⟨z, tail3⟩
        · rw [hsplit] at hvalid
          rcases hm : pyIntParse m with _ | mi <;>
            rcases hy : pyIntParse y with _ | yi
          · exact ⟨"invalid literal for int with base 10", by simp [hm, hy]⟩
          · exact ⟨"invalid literal for int with base 10", by simp [hm, hy]⟩
          · exact ⟨"invalid literal for int with base 10", by simp [hm, hy]⟩
          · simp [hm, hy] at hvalid
        · exact ⟨_, rfl⟩
  obtain ⟨e, he⟩ := hpf
  refine ⟨e, ?_⟩
  unfold get_trial_balance_data
  rw [he]

/-- Witness for C10 at the concrete malformed period 2024. -/
theorem c10_period_partiality_witness :
    ("2024" ≠ "all" ∧ validPeriod "2024" = false) ∧
      ∃ e, get_trial_balance_data [] 0 "2024" = .error e :=
  ⟨⟨by decide, by decide⟩, c10_period_partiality [] 0 "2024" (by decide) (by decide)⟩

end ClaimC10

section ClaimC9

/-- C9 as stated is false: the trial balance of an unknown company id is
not an empty sequence of rows — it still contains the TOTAL row. -/
theorem c9_counterexample :
    get_trial_balance_data [] 99 "all" =
      .ok [{ head_of_account := "TOTAL", debit := 0, credit := 0, is_total := true }] ∧
    ([{ head_of_account := "TOTAL", debit := 0, credit := 0, is_total := true }] :
      List TBRow) ≠ [] :=
  ⟨by rfl, by decide⟩

/-- C9 amended: for an unknown company id the ledger and the category
report return empty sequences and the trial balance returns exactly the
zero TOTAL row; for an unknown account the ledger is empty and for an
unknown category the report is empty — never an error. -/
theorem c9_unknown_empty (txs : List Transaction) (companyId : Nat)
    (account : String) (today : Date) (category : String) :
    ((∀ t ∈ txs, t.company_id ≠ companyId) →
      get_ledger_data txs companyId account today = [] ∧
      get_special_report_data txs companyId category = [] ∧
      get_trial_balance_data txs companyId "all" =
        .ok [{ head_of_account := "TOTAL", debit := 0, credit := 0, is_total := true }]) ∧
    ((∀ t ∈ txs, pyUpper t.head_of_account ≠ pyUpper (pyStrip account)) →
      get_ledger_data txs companyId account today = []) ∧
    ((∀ t ∈ txs, t.company_id = companyId → t.category ≠ category) →
      get_special_report_data txs companyId category = []) := by
  refine ⟨fun hc => ⟨?_, ?_, ?_⟩, fun ha => ?_, fun hcat => ?_⟩
  · have hfil : txs.filter (ledgerMatch companyId (pyUpper (pyStrip account))) = [] := by
      rw [List.filter_eq_nil_iff]
      intro t ht
      simp only [ledgerMatch, Bool.and_eq_true, beq_iff_eq, not_and]
      intro h
      exact absurd h (hc t ht)
    rw [get_ledger_data, hfil]
    rfl
  · have hfil : txs.filter (fun t =>
        t.company_id == companyId && t.category == category &&
          t.head_of_account != "") = [] := by
      rw [List.filter_eq_nil_iff]
      intro t ht
      simp only [Bool.and_eq_true, beq_iff_eq, bne_iff_ne, not_and]
      intro h
      exact absurd h.1 (hc t ht)
    rw [get_special_report_data, hfil]
    rfl
  · have hfil : tbRows txs companyId none = [] := by
      unfold tbRows
      rw [List.filter_eq_nil_iff]
      intro t ht
      simp only [Bool.and_eq_true, beq_iff_eq, not_and]
      intro h
      exact absurd h.1 (hc t ht)
    unfold get_trial_balance_data
    show Except.ok _ = _
    rw [hfil]
    rfl
  · have hfil : txs.filter (ledgerMatch companyId (pyUpper (pyStrip account))) = [] := by
      rw [List.filter_eq_nil_iff]
      intro t ht
      simp only [ledgerMatch, Bool.and_eq_true, beq_iff_eq, not_and]
      intro _ h
      exact absurd h (ha t ht)
    rw [get_ledger_data, hfil]
    rfl
  · have hfil : txs.filter (fun t =>
        t.company_id == companyId && t.category == category &&
          t.head_of_account != "") = [] := by
      rw [List.filter_eq_nil_iff]
      intro t ht
      simp only [Bool.and_eq_true, beq_iff_eq, bne_iff_ne, not_and]
      intro h
      exact absurd h.2 (hcat t ht h.1)
    rw [get_special_report_data, hfil]
    rfl

/-- Witness for C9 amended at a concrete store that does not know company
7. -/
theorem c9_unknown_empty_witness :
    get_ledger_data [⟨⟨2024, 1, 1⟩, "Cash", "", "", "", 5, 0, 1⟩] 7 "X" ⟨2024, 2, 1⟩ = [] :=
  ((c9_unknown_empty [⟨⟨2024, 1, 1⟩, "Cash", "", "", "", 5, 0, 1⟩] 7 "X" ⟨2024, 2, 1⟩ "Y").1
    (by decide)).1

end ClaimC9

section ClaimC4

/-- C4 as stated is false: a failed ingestion under a previously unknown
company name leaves a newly created company record behind, because the
company creation is committed before the processing runs. -/
theorem c4_counterexample :
    (upload_file ⟨[], [], []⟩ "ACME" "a.xlsx"
        ⟨["Date", "Head of Accounts", "Debit"], []⟩).2 =
      .error "Failed to process Excel data: Missing required columns: Credit" ∧
    (upload_file ⟨[], [], []⟩ "ACME" "a.xlsx"
        ⟨["Date", "Head of Accounts", "Debit"], []⟩).1.companies = [(1, "ACME")] ∧
    [(1, "ACME")] ≠ ([] : List (Nat × String)) :=
  ⟨by rfl, by rfl, by decide⟩

/-- C4 amended: on any processing failure no transaction and no stored
file changes — prior transactions and the prior source file survive and no
new ones remain — while the company table is unchanged for a known name
and gains exactly the newly created (empty) company for an unknown name. -/
theorem c4_failed_upload (st : DBState) (companyName fileName : String)
    (f : ExcelFile) (e : String) (hf : process_excel_data f = .error e) :
    (upload_file st companyName fileName f).2 = .error e ∧
    (upload_file st companyName fileName f).1.transactions = st.transactions ∧
    (upload_file st companyName fileName f).1.files = st.files ∧
    ((upload_file st companyName fileName f).1.companies = st.companies ∨
      (upload_file st companyName fileName f).1.companies =
        st.companies ++ [(freshCompanyId st, companyName)]) := by
  rcases hfind : st.companies.find? (fun c => c.2 == companyName) with _ | c <;>
    simp [upload_file, hfind, hf]

/-- Witness for C4 amended: uploading a file that lacks the Credit column
into a store holding prior data for the company leaves that data intact. -/
theorem c4_failed_upload_witness :
    (upload_file
        ⟨[(1, "ACME")], [⟨⟨2024, 1, 1⟩, "Cash", "", "", "", 5, 0, 1⟩],
          [⟨"old.xlsx", ⟨["Date", "Head of Accounts", "Debit", "Credit"], []⟩, 1⟩]⟩
        "ACME" "new.xlsx" ⟨["Date", "Head of Accounts", "Debit"], []⟩).1.transactions =
      [⟨⟨2024, 1, 1⟩, "Cash", "", "", "", 5, 0, 1⟩] :=
  (c4_failed_upload
    ⟨[(1, "ACME")], [⟨⟨2024, 1, 1⟩, "Cash", "", "", "", 5, 0, 1⟩],
      [⟨"old.xlsx", ⟨["Date", "Head of Accounts", "Debit", "Credit"], []⟩, 1⟩]⟩
    "ACME" "new.xlsx" ⟨["Date", "Head of Accounts", "Debit"], []⟩
    "Failed to process Excel data: Missing required columns: Credit" (by rfl)).2.1

end ClaimC4

section ClaimC6

lemma filter_toTransaction_ne (ts : List TxData) (cid : Nat) :
    (ts.map (fun t => t.toTransaction cid)).filter
      (fun t => decide (t.company_id ≠ cid)) = [] := by
  rw [List.filter_eq_nil_iff]
  intro t ht
  obtain ⟨x, _, rfl⟩ := List.mem_map.mp ht
  simp [TxData.toTransaction]

/-- C6: ingesting the same valid file twice in succession under the same
company name yields the same reported count both times and the second
upload leaves the whole store exactly as the first upload left it (so in
particular the final transaction set is identical, not doubled), because
the prior transactions and stored file of the company are replaced, not
merged.  The two hypotheses after the successful parse are the foreign-key
invariants of the store: every transaction and every stored file belongs
to an existing company. -/
theorem c6_idempotent_reingest (st : DBState) (companyName fileName : String)
    (f : ExcelFile) (ts : List TxData) (hok : process_excel_data f = .ok ts)
    (hfk : ∀ t ∈ st.transactions, ∃ c ∈ st.companies, t.company_id = c.1)
    (hfkf : ∀ cf ∈ st.files, ∃ c ∈ st.companies, cf.company_id = c.1) :
    (upload_file st companyName fileName f).2 = .ok ts.length ∧
    upload_file (upload_file st companyName fileName f).1 companyName fileName f =
      ((upload_file st companyName fileName f).1, .ok ts.length) := by
  rcases hfind : st.companies.find? (fun c => c.2 == companyName) with _ | c
  · have hlt : ∀ t ∈ st.transactions, t.company_id ≠ freshCompanyId st := by
      intro t ht
      obtain ⟨c', hc', he⟩ := hfk t ht
      have hb : c'.1 ≤ (st.companies.map (fun x => x.1)).foldl max 0 :=
        foldl_max_le (List.mem_map_of_mem _ hc') 0
      rw [he]
      unfold freshCompanyId
      omega
    have hltf : ∀ cf ∈ st.files, cf.company_id ≠ freshCompanyId st := by
      intro cf hcf
      obtain ⟨c', hc', he⟩ := hfkf cf hcf
      have hb : c'.1 ≤ (st.companies.map (fun x => x.1)).foldl max 0 :=
        foldl_max_le (List.mem_map_of_mem _ hc') 0
      rw [he]
      unfold freshCompanyId
      omega
    have hfind2 : (st.companies ++ [(freshCompanyId st, companyName)]).find?
        (fun c => c.2 == companyName) = some (freshCompanyId st, companyName) := by
      rw [List.find?_append, hfind]
      simp
    constructor
    · simp [upload_file, hfind, hok]
    · simp only [upload_file, hfind, hok]
      simp only [hfind2, hok]
      simp only [Prod.mk.injEq, DBState.mk.injEq]
      refine ⟨⟨trivial, ?_, ?_⟩, trivial⟩
      · rw [List.filter_append, filter_toTransaction_ne, List.append_nil,
          List.filter_eq_self.mpr (fun t ht => by simpa using hlt t ht)]
      · rw [List.filter_append,
          List.filter_eq_self.mpr (fun cf hcf => by simpa using hltf cf hcf)]
        simp
  · constructor
    · simp [upload_file, hfind, hok]
    · simp only [upload_file, hfind, hok]
      simp only [Prod.mk.injEq, DBState.mk.injEq]
      refine ⟨⟨trivial, ?_, ?_⟩, trivial⟩
      · rw [List.filter_append, filter_toTransaction_ne, List.append_nil,
          List.filter_filter]
        simp
      · rw [List.filter_append, List.filter_filter]
        simp

/-- Witness for C6: a concrete double upload of the same three-row file
into an empty store. -/
theorem c6_idempotent_reingest_witness :
    (upload_file ⟨[], [], []⟩ "ACME" "a.xlsx"
        ⟨["Date", "Head of Accounts", "Debit", "Credit"],
          [⟨some ⟨2024, 1, 1⟩, some "Cash", none, none, none, .num 100, .nan⟩,
           ⟨some ⟨2024, 1, 5⟩, some "CASH", none, none, none, .nan, .num 40⟩]⟩).2 =
      .ok 2 ∧
    upload_file (upload_file ⟨[], [], []⟩ "ACME" "a.xlsx"
        ⟨["Date", "Head of Accounts", "Debit", "Credit"],
          [⟨some ⟨2024, 1, 1⟩, some "Cash", none, none, none, .num 100, .nan⟩,
           ⟨some ⟨2024, 1, 5⟩, some "CASH", none, none, none, .nan, .num 40⟩]⟩).1
        "ACME" "a.xlsx"
        ⟨["Date", "Head of Accounts", "Debit", "Credit"],
          [⟨some ⟨2024, 1, 1⟩, some "Cash", none, none, none, .num 100, .nan⟩,
           ⟨some ⟨2024, 1, 5⟩, some "CASH", none, none, none, .nan, .num 40⟩]⟩ =
      ((upload_file ⟨[], [], []⟩ "ACME" "a.xlsx"
        ⟨["Date", "Head of Accounts", "Debit", "Credit"],
          [⟨some ⟨2024, 1, 1⟩, some "Cash", none, none, none, .num 100, .nan⟩,
           ⟨some ⟨2024, 1, 5⟩, some "CASH", none, none, none, .nan, .num 40⟩]⟩).1,
        .ok 2) :=
  c6_idempotent_reingest ⟨[], [], []⟩ "ACME" "a.xlsx"
    ⟨["Date", "Head of Accounts", "Debit", "Credit"],
      [⟨some ⟨2024, 1, 1⟩, some "Cash", none, none, none, .num 100, .nan⟩,
       ⟨some ⟨2024, 1, 5⟩, some "CASH", none, none, none, .nan, .num 40⟩]⟩
    [⟨⟨2024, 1, 1⟩, "Cash", "", "", "", 100, 0⟩,
     ⟨⟨2024, 1, 5⟩, "Cash", "", "", "", 0, 40⟩]
    (by rfl) (by simp) (by simp)

end ClaimC6

section ClaimC3

lemma ledgerRows_length (today : Date) : ∀ (b : ℚ) (ts : List Transaction),
    (ledgerRows today b ts).length = ts.length := by
  intro b ts
  induction ts generalizing b with
  | nil => rfl
  | cons t ts ih => simp [ledgerRows, ih]

lemma ledgerRows_get (today : Date) : ∀ (ts : List Transaction) (b : ℚ) (k : Nat)
    (hk : k < (ledgerRows today b ts).length) (hk2 : k < ts.length),
    (ledgerRows today b ts).get ⟨k, hk⟩ =
      { date := formatDate (ts.get ⟨k, hk2⟩).date
        description := (ts.get ⟨k, hk2⟩).description
        reference := (ts.get ⟨k, hk2⟩).reference
        debit := (ts.get ⟨k, hk2⟩).debit
        credit := (ts.get ⟨k, hk2⟩).credit
        balance := b + ((ts.take (k + 1)).map (fun t => t.debit - t.credit)).sum
        days := (today.toDays : Int) - ((ts.get ⟨k, hk2⟩).date.toDays : Int) } := by
  intro ts
  induction ts with
  | nil => intro b k hk hk2; exact absurd hk2 (Nat.not_lt_zero k)
  | cons t ts ih =>
    intro b k hk hk2
    cases k with
    | zero => simp [ledgerRows]
    | succ k =>
      have hk2s : k < ts.length := Nat.lt_of_succ_lt_succ hk2
      have hks : k < (ledgerRows today (b + (t.debit - t.credit)) ts).length := by
        rw [ledgerRows_length]
        exact hk2s
      have hrec := ih (b + (t.debit - t.credit)) k hks hk2s
      show (ledgerRows today (b + (t.debit - t.credit)) ts).get ⟨k, hks⟩ = _
      rw [hrec]
      simp [List.sum_cons, add_assoc]

/-- C3 as stated is false: a query with surrounding whitespace is not
case-insensitively equal to any stored head, yet the ledger still returns
the rows of the account, because the source strips the query before the
uppercase comparison. -/
theorem c3_counterexample :
    get_ledger_data [⟨⟨2024, 1, 1⟩, "CASH", "", "", "", 100, 0, 1⟩] 1 " cash"
        ⟨2024, 1, 2⟩ =
      [⟨"01/01/2024", "", "", 100, 0, 100, 1⟩] ∧
    (∀ t ∈ [(⟨⟨2024, 1, 1⟩, "CASH", "", "", "", 100, 0, 1⟩ : Transaction)],
      pyUpper t.head_of_account ≠ pyUpper " cash") :=
  ⟨by rfl, by decide⟩

/-- C3 amended: the ledger selects exactly the transactions of the company
whose head-of-account matches the whitespace-stripped query
case-insensitively; they are ordered by date ascending with ties kept in
insertion (id) order, and row k carries the post-row running balance (the
sum of debit minus credit over the first k+1 ordered rows, started from 0)
together with the age in days relative to the query-time date. -/
theorem c3_ledger (txs : List Transaction) (companyId : Nat) (account : String)
    (today : Date) :
    (txs.filter (ledgerMatch companyId (pyUpper (pyStrip account))) =
      txs.filter fun t =>
        decide (t.company_id = companyId ∧
          pyUpper t.head_of_account = pyUpper (pyStrip account))) ∧
    List.Perm
      ((txs.filter (ledgerMatch companyId (pyUpper (pyStrip account)))).insertionSort
        TxLe)
      (txs.filter (ledgerMatch companyId (pyUpper (pyStrip account)))) ∧
    List.Sorted TxLe
      ((txs.filter (ledgerMatch companyId (pyUpper (pyStrip account)))).insertionSort
        TxLe) ∧
    (∀ d : Date,
      ((txs.filter (ledgerMatch companyId (pyUpper (pyStrip account)))).insertionSort
          TxLe).filter (fun t => t.date == d) =
        (txs.filter (ledgerMatch companyId (pyUpper (pyStrip account)))).filter
          (fun t => t.date == d)) ∧
    (get_ledger_data txs companyId account today).length =
      ((txs.filter (ledgerMatch companyId (pyUpper (pyStrip account)))).insertionSort
        TxLe).length ∧
    ∀ (k : Nat) (hk : k < (get_ledger_data txs companyId account today).length)
      (hk2 : k < ((txs.filter (ledgerMatch companyId
        (pyUpper (pyStrip account)))).insertionSort TxLe).length),
      (get_ledger_data txs companyId account today).get ⟨k, hk⟩ =
        { date := formatDate ((((txs.filter (ledgerMatch companyId
            (pyUpper (pyStrip account)))).insertionSort TxLe).get ⟨k, hk2⟩).date)
          description := (((txs.filter (ledgerMatch companyId
            (pyUpper (pyStrip account)))).insertionSort TxLe).get ⟨k, hk2⟩).description
          reference := (((txs.filter (ledgerMatch companyId
            (pyUpper (pyStrip account)))).insertionSort TxLe).get ⟨k, hk2⟩).reference
          debit := (((txs.filter (ledgerMatch companyId
            (pyUpper (pyStrip account)))).insertionSort TxLe).get ⟨k, hk2⟩).debit
          credit := (((txs.filter (ledgerMatch companyId
            (pyUpper (pyStrip account)))).insertionSort TxLe).get ⟨k, hk2⟩).credit
          balance := ((((txs.filter (ledgerMatch companyId
            (pyUpper (pyStrip account)))).insertionSort TxLe).take (k + 1)).map
              (fun t => t.debit - t.credit)).sum
          days := (today.toDays : Int) - ((((txs.filter (ledgerMatch companyId
            (pyUpper (pyStrip account)))).insertionSort TxLe).get
              ⟨k, hk2⟩).date.toDays : Int) } := by
  refine ⟨?_, List.perm_insertionSort TxLe _, List.sorted_insertionSort _ _, ?_, ?_, ?_⟩
  · apply List.filter_congr
    intro t _
    unfold ledgerMatch
    by_cases h1 : t.company_id = companyId <;>
      by_cases h2 : pyUpper t.head_of_account = pyUpper (pyStrip account) <;>
      simp [h1, h2]
  · intro d
    have hpw : ((txs.filter (ledgerMatch companyId (pyUpper (pyStrip account)))).filter
        (fun t => t.date == d)).Pairwise TxLe := by
      apply List.pairwise_of_forall_mem_list
      intro a ha b hb
      have ha2 := (List.mem_filter.mp ha).2
      have hb2 := (List.mem_filter.mp hb).2
      rw [beq_iff_eq] at ha2 hb2
      unfold TxLe Date.le
      rw [ha2, hb2]
      omega
    have hsub := List.sublist_insertionSort hpw
      (List.filter_sublist (txs.filter (ledgerMatch companyId (pyUpper (pyStrip account)))))
    have hsubf := hsub.filter (fun t => t.date == d)
    have hself : ((txs.filter (ledgerMatch companyId (pyUpper (pyStrip account)))).filter
        (fun t => t.date == d)).filter (fun t => t.date == d) =
        (txs.filter (ledgerMatch companyId (pyUpper (pyStrip account)))).filter
          (fun t => t.date == d) := by
      rw [List.filter_filter]
      apply List.filter_congr
      intro a _
      cases h : (a.date == d) <;> simp [h]
    rw [hself] at hsubf
    have hperm := (List.perm_insertionSort TxLe
      (txs.filter (ledgerMatch companyId (pyUpper (pyStrip account))))).filter
        (fun t => t.date == d)
    exact (hsubf.eq_of_length hperm.length_eq.symm).symm
  · rw [get_ledger_data, ledgerRows_length]
  · intro k hk hk2
    have hk3 : k < (ledgerRows today 0
        ((txs.filter (ledgerMatch companyId (pyUpper (pyStrip account)))).insertionSort
          TxLe)).length := hk
    have := ledgerRows_get today
      ((txs.filter (ledgerMatch companyId (pyUpper (pyStrip account)))).insertionSort TxLe)
      0 k hk3 hk2
    rw [zero_add] at this
    exact this

/-- Witness for C3 amended at a concrete two-row store: the second conjunct
instantiated gives the sorted permutation property at that store. -/
theorem c3_ledger_witness :
    (get_ledger_data
        [⟨⟨2024, 1, 5⟩, "Cash", "", "", "", 0, 40, 1⟩,
         ⟨⟨2024, 1, 1⟩, "CASH", "", "", "", 100, 0, 1⟩] 1 "cash" ⟨2024, 1, 10⟩).length =
      (([⟨⟨2024, 1, 5⟩, "Cash", "", "", "", 0, 40, 1⟩,
         ⟨⟨2024, 1, 1⟩, "CASH", "", "", "", 100, 0, 1⟩].filter
          (ledgerMatch 1 (pyUpper (pyStrip "cash")))).insertionSort TxLe).length :=
  (c3_ledger
    [⟨⟨2024, 1, 5⟩, "Cash", "", "", "", 0, 40, 1⟩,
     ⟨⟨2024, 1, 1⟩, "CASH", "", "", "", 100, 0, 1⟩] 1 "cash" ⟨2024, 1, 10⟩).2.2.2.2.1

end ClaimC3

section ClaimC1

/-- C1 as stated is false on stores holding an empty head-of-account
(reachable by ingesting a whitespace-only head): the empty head has a
matching category and a nonzero company-wide balance, yet the report drops
it, because the heads query filters out the empty head. -/
theorem c1_counterexample :
    get_special_report_data [⟨⟨2024, 1, 1⟩, "", "X", "", "", 5, 0, 1⟩] 1 "X" = [] ∧
    (⟨⟨2024, 1, 1⟩, "", "X", "", "", 5, 0, 1⟩ : Transaction).category = "X" ∧
    (⟨⟨2024, 1, 1⟩, "", "X", "", "", 5, 0, 1⟩ : Transaction).company_id = 1 ∧
    reportBalance [⟨⟨2024, 1, 1⟩, "", "X", "", "", 5, 0, 1⟩] 1 "" = 5 ∧
    (5 : ℚ) ≠ 0 :=
  ⟨by rfl, by rfl, by rfl, by rfl, by decide⟩

/-- C1 amended: one row per distinct nonempty head-of-account among the
company transactions whose category matches exactly; each row totals that
head over all company transactions regardless of category; balance is
total debit minus total credit; zero-balance rows are dropped; rows are
sorted ascending by head with no duplicates. -/
theorem c1_special_report (txs : List Transaction) (companyId : Nat)
    (category : String) :
    (∀ r ∈ get_special_report_data txs companyId category,
      r.head_of_account ≠ "" ∧
      (∃ t ∈ txs, t.company_id = companyId ∧ t.category = category ∧
        t.head_of_account = r.head_of_account) ∧
      r.debit = sumDebit (txs.filter fun t => t.company_id == companyId)
        r.head_of_account ∧
      r.credit = sumCredit (txs.filter fun t => t.company_id == companyId)
        r.head_of_account ∧
      r.balance = r.debit - r.credit ∧ r.balance ≠ 0) ∧
    (∀ t ∈ txs, t.company_id = companyId → t.category = category →
      t.head_of_account ≠ "" →
      reportBalance txs companyId t.head_of_account ≠ 0 →
      ∃ r ∈ get_special_report_data txs companyId category,
        r.head_of_account = t.head_of_account) ∧
    List.Sorted StrLe ((get_special_report_data txs companyId category).map
      (fun r => r.head_of_account)) ∧
    ((get_special_report_data txs companyId category).map
      (fun r => r.head_of_account)).Nodup := by
  have hout : get_special_report_data txs companyId category =
      (((((txs.filter (fun t => t.company_id == companyId &&
            t.category == category && t.head_of_account != "")).map
          (fun t => t.head_of_account)).dedup).insertionSort StrLe).filter
        (fun h => decide (reportBalance txs companyId h ≠ 0))).map
          (reportRowOf txs companyId) := by
    simp only [get_special_report_data]
    exact filterMap_ite _ _ _
  have hmaphead : (get_special_report_data txs companyId category).map
      (fun r => r.head_of_account) =
      ((((txs.filter (fun t => t.company_id == companyId &&
            t.category == category && t.head_of_account != "")).map
          (fun t => t.head_of_account)).dedup).insertionSort StrLe).filter
        (fun h => decide (reportBalance txs companyId h ≠ 0)) := by
    rw [hout, List.map_map]
    have hcomp : ((fun r : ReportRow => r.head_of_account) ∘
        (reportRowOf txs companyId)) = fun h => h := by
      funext h
      rfl
    rw [hcomp]
    simp
  refine ⟨?_, ?_, ?_, ?_⟩
  · intro r hr
    rw [hout] at hr
    obtain ⟨h, hh, rfl⟩ := List.mem_map.mp hr
    obtain ⟨hmem, hbal⟩ := List.mem_filter.mp hh
    rw [List.mem_insertionSort, List.mem_dedup] at hmem
    obtain ⟨t, htc, rfl⟩ := List.mem_map.mp hmem
    obtain ⟨htx, hcond⟩ := List.mem_filter.mp htc
    simp only [Bool.and_eq_true, beq_iff_eq, bne_iff_ne, ne_eq] at hcond
    refine ⟨hcond.2, ⟨t, htx, hcond.1.1, hcond.1.2, rfl⟩, rfl, rfl, rfl, ?_⟩
    simpa using hbal
  · intro t ht h1 h2 h3 h4
    refine ⟨reportRowOf txs companyId t.head_of_account, ?_, rfl⟩
    rw [hout]
    apply List.mem_map_of_mem
    rw [List.mem_filter]
    constructor
    · rw [List.mem_insertionSort, List.mem_dedup]
      apply List.mem_map_of_mem
      rw [List.mem_filter]
      exact ⟨ht, by simp [h1, h2, h3]⟩
    · simpa using h4
  · rw [hmaphead]
    exact (List.sorted_insertionSort _ _).filter _
  · rw [hmaphead]
    apply List.Nodup.filter
    exact ((List.perm_insertionSort StrLe _).nodup_iff).mpr (List.nodup_dedup _)

/-- Witness for C1 amended: at a concrete store the completeness conjunct
produces the row of the Cash head. -/
theorem c1_special_report_witness :
    ∃ r ∈ get_special_report_data [⟨⟨2024, 1, 1⟩, "Cash", "X", "", "", 5, 0, 1⟩] 1 "X",
      r.head_of_account = "Cash" :=
  (c1_special_report [⟨⟨2024, 1, 1⟩, "Cash", "X", "", "", 5, 0, 1⟩] 1 "X").2.1
    ⟨⟨2024, 1, 1⟩, "Cash", "X", "", "", 5, 0, 1⟩ (by simp) rfl rfl (by decide) (by decide)

end ClaimC1

section ClaimC2

lemma tbRowOf_pos (g : String × ℚ × ℚ) (h : 0 < g.2.1 - g.2.2) :
    (tbRowOf g).debit = g.2.1 - g.2.2 ∧ (tbRowOf g).credit = 0 := by
  simp only [tbRowOf]
  rw [if_pos h, if_pos h]
  exact ⟨rfl, rfl⟩

lemma tbRowOf_neg (g : String × ℚ × ℚ) (h : g.2.1 - g.2.2 < 0) :
    (tbRowOf g).debit = 0 ∧ (tbRowOf g).credit = -(g.2.1 - g.2.2) := by
  have hnot : ¬ (0 < g.2.1 - g.2.2) := lt_asymm h
  simp only [tbRowOf]
  rw [if_neg hnot, if_neg hnot]
  exact ⟨rfl, rfl⟩

lemma tbLoop_total_debit : ∀ gs : List (String × ℚ × ℚ),
    (tbLoop gs).2.1 = ((tbLoop gs).1.map (fun r => r.debit)).sum := by
  intro gs
  induction gs with
  | nil => simp [tbLoop]
  | cons g gs ih =>
    by_cases h : g.2.1 - g.2.2 = 0 <;> simp [tbLoop, h, ih]

lemma tbLoop_total_credit : ∀ gs : List (String × ℚ × ℚ),
    (tbLoop gs).2.2 = ((tbLoop gs).1.map (fun r => r.credit)).sum := by
  intro gs
  induction gs with
  | nil => simp [tbLoop]
  | cons g gs ih =>
    by_cases h : g.2.1 - g.2.2 = 0 <;> simp [tbLoop, h, ih]

lemma tbLoop_mem_src : ∀ (gs : List (String × ℚ × ℚ)) (r : TBRow),
    r ∈ (tbLoop gs).1 → ∃ g ∈ gs, g.2.1 - g.2.2 ≠ 0 ∧ r = tbRowOf g := by
  intro gs
  induction gs with
  | nil => intro r hr; simp [tbLoop] at hr
  | cons g gs ih =>
    intro r hr
    by_cases h : g.2.1 - g.2.2 = 0
    · simp only [tbLoop, h, if_pos] at hr
      obtain ⟨g2, hg2, hb, he⟩ := ih r (by simpa using hr)
      exact ⟨g2, List.mem_cons_of_mem g hg2, hb, he⟩
    · simp only [tbLoop, h, if_neg, not_false_iff, List.mem_cons] at hr
      rcases hr with rfl | hr2
      · exact ⟨g, List.mem_cons_self g gs, h, rfl⟩
      · obtain ⟨g2, hg2, hb, he⟩ := ih r hr2
        exact ⟨g2, List.mem_cons_of_mem g hg2, hb, he⟩

lemma tbLoop_mem_tgt : ∀ (gs : List (String × ℚ × ℚ)) (g : String × ℚ × ℚ),
    g ∈ gs → g.2.1 - g.2.2 ≠ 0 → tbRowOf g ∈ (tbLoop gs).1 := by
  intro gs
  induction gs with
  | nil => intro g hg; cases hg
  | cons g2 gs ih =>
    intro g hg hb
    rcases List.mem_cons.mp hg with rfl | hg2
    · simp [tbLoop, hb]
    · by_cases h : g2.2.1 - g2.2.2 = 0
      · simpa [tbLoop, h] using ih g hg2 hb
      · simp only [tbLoop, h, if_neg, not_false_iff, List.mem_cons]
        exact Or.inr (ih g hg2 hb)

lemma tbLoop_heads_sublist : ∀ gs : List (String × ℚ × ℚ),
    List.Sublist ((tbLoop gs).1.map (fun r => r.head_of_account))
      (gs.map (fun g => g.1)) := by
  intro gs
  induction gs with
  | nil => simp [tbLoop]
  | cons g gs ih =>
    by_cases h : g.2.1 - g.2.2 = 0
    · simp only [tbLoop, h, if_pos, List.map_cons]
      exact ih.cons g.1
    · simp only [tbLoop, h, if_neg, not_false_iff, List.map_cons]
      exact (List.Sublist.cons₂ _ ih)

/-- C2 as stated is false on a store holding an empty head-of-account
(reachable by ingesting a whitespace-only head): the empty head has a
nonzero balance, yet the trial balance shows no row for it and its TOTAL
row ignores it entirely. -/
theorem c2_counterexample :
    get_trial_balance_data [⟨⟨2024, 1, 1⟩, "", "", "", "", 5, 0, 1⟩] 1 "all" =
      .ok [totalRow 0 0] ∧
    tbBalance [⟨⟨2024, 1, 1⟩, "", "", "", "", 5, 0, 1⟩] "" = 5 ∧ (5 : ℚ) ≠ 0 :=
  ⟨by rfl, by rfl, by decide⟩

/-- C2 amended: for a period that parses (the sentinel or MM/YYYY), the
trial balance sums debit and credit per distinct NONEMPTY head-of-account
over the period-restricted company transactions, drops zero-balance
accounts, shows a positive balance entirely in the debit column and a
negative one entirely (in absolute value) in the credit column, sorts the
account rows ascending by head without duplicates, appends exactly one
TOTAL row holding the sums of the emitted columns, and appends a
DIFFERENCE row exactly when those sums differ, with the excess in the
debit column when total debit is larger and in the credit column
otherwise. -/
theorem c2_trial_balance (txs : List Transaction) (companyId : Nat)
    (period : String) (pf : Option (Int × Int))
    (hpf : periodFilter period = .ok pf) :
    ∃ body : List TBRow,
      (∀ r ∈ body, r.is_total = false ∧ r.is_difference = false ∧
        r.head_of_account ≠ "" ∧
        (∃ t ∈ txs, t.company_id = companyId ∧
          t.head_of_account = r.head_of_account ∧ inPeriod pf t) ∧
        tbBalance (tbRows txs companyId pf) r.head_of_account ≠ 0 ∧
        (0 < tbBalance (tbRows txs companyId pf) r.head_of_account →
          r.debit = tbBalance (tbRows txs companyId pf) r.head_of_account ∧
          r.credit = 0) ∧
        (tbBalance (tbRows txs companyId pf) r.head_of_account < 0 →
          r.debit = 0 ∧
          r.credit = -tbBalance (tbRows txs companyId pf) r.head_of_account)) ∧
      (∀ t ∈ txs, t.company_id = companyId → t.head_of_account ≠ "" →
        inPeriod pf t →
        tbBalance (tbRows txs companyId pf) t.head_of_account ≠ 0 →
        ∃ r ∈ body, r.head_of_account = t.head_of_account) ∧
      List.Sorted StrLe (body.map (fun r => r.head_of_account)) ∧
      (body.map (fun r => r.head_of_account)).Nodup ∧
      ((body.map (fun r => r.debit)).sum = (body.map (fun r => r.credit)).sum →
        get_trial_balance_data txs companyId period =
          .ok (body ++ [totalRow ((body.map (fun r => r.debit)).sum)
            ((body.map (fun r => r.credit)).sum)])) ∧
      ((body.map (fun r => r.debit)).sum ≠ (body.map (fun r => r.credit)).sum →
        get_trial_balance_data txs companyId period =
          .ok (body ++ [totalRow ((body.map (fun r => r.debit)).sum)
              ((body.map (fun r => r.credit)).sum),
            differenceRow ((body.map (fun r => r.debit)).sum)
              ((body.map (fun r => r.credit)).sum)])) := by
  refine ⟨(tbLoop (tbGrouped (tbRows txs companyId pf))).1, ?_, ?_, ?_, ?_, ?_, ?_⟩
  · intro r hr
    obtain ⟨g, hg, hbal, rfl⟩ := tbLoop_mem_src _ r hr
    obtain ⟨h, hh, rfl⟩ := List.mem_map.mp hg
    rw [tbHeads, List.mem_insertionSort, List.mem_dedup] at hh
    obtain ⟨t, htr, rfl⟩ := List.mem_map.mp hh
    have htx := List.mem_filter.mp htr
    simp only [Bool.and_eq_true, beq_iff_eq, bne_iff_ne, ne_eq] at htx
    have hbal2 : tbBalance (tbRows txs companyId pf) t.head_of_account ≠ 0 := hbal
    refine ⟨rfl, rfl, htx.2.1.2, ⟨t, htx.1, htx.2.1.1, rfl, htx.2.2⟩, hbal2, ?_, ?_⟩
    · intro h0
      exact tbRowOf_pos _ h0
    · intro h0
      exact tbRowOf_neg _ h0
  · intro t ht h1 h2 h3 h4
    have htr : t ∈ tbRows txs companyId pf := by
      rw [tbRows, List.mem_filter]
      exact ⟨ht, by simp [h1, h2, h3]⟩
    have hh : t.head_of_account ∈ tbHeads (tbRows txs companyId pf) := by
      rw [tbHeads, List.mem_insertionSort, List.mem_dedup]
      exact List.mem_map_of_mem _ htr
    have hg : (t.head_of_account, sumDebit (tbRows txs companyId pf) t.head_of_account,
        sumCredit (tbRows txs companyId pf) t.head_of_account) ∈
        tbGrouped (tbRows txs companyId pf) := List.mem_map_of_mem _ hh
    exact ⟨tbRowOf (t.head_of_account, sumDebit (tbRows txs companyId pf) t.head_of_account,
      sumCredit (tbRows txs companyId pf) t.head_of_account),
      tbLoop_mem_tgt _ _ hg h4, rfl⟩
  · have hsub := tbLoop_heads_sublist (tbGrouped (tbRows txs companyId pf))
    have hgheads : (tbGrouped (tbRows txs companyId pf)).map (fun g => g.1) =
        tbHeads (tbRows txs companyId pf) := by
      rw [tbGrouped, List.map_map]
      have hcomp : ((fun g : String × ℚ × ℚ => g.1) ∘
          (fun h => (h, sumDebit (tbRows txs companyId pf) h,
            sumCredit (tbRows txs companyId pf) h))) = fun h => h := rfl
      rw [hcomp]
      simp
    rw [hgheads] at hsub
    exact List.Pairwise.sublist hsub (List.sorted_insertionSort _ _)
  · have hsub := tbLoop_heads_sublist (tbGrouped (tbRows txs companyId pf))
    have hgheads : (tbGrouped (tbRows txs companyId pf)).map (fun g => g.1) =
        tbHeads (tbRows txs companyId pf) := by
      rw [tbGrouped, List.map_map]
      have hcomp : ((fun g : String × ℚ × ℚ => g.1) ∘
          (fun h => (h, sumDebit (tbRows txs companyId pf) h,
            sumCredit (tbRows txs companyId pf) h))) = fun h => h := rfl
      rw [hcomp]
      simp
    rw [hgheads] at hsub
    exact List.Nodup.sublist hsub (((List.perm_insertionSort StrLe _).nodup_iff).mpr
      (List.nodup_dedup _))
  · intro heq
    simp only [get_trial_balance_data, hpf]
    rw [← tbLoop_total_debit, ← tbLoop_total_credit] at heq ⊢
    rw [if_neg (by simp [sub_eq_zero.mpr heq])]
  · intro hne
    simp only [get_trial_balance_data, hpf]
    rw [← tbLoop_total_debit, ← tbLoop_total_credit] at hne ⊢
    rw [if_pos (by simpa [sub_eq_zero] using hne)]
    simp

/-- Witness for C2 amended at the sentinel period over a concrete store. -/
theorem c2_trial_balance_witness :
    ∃ body : List TBRow,
      (∀ r ∈ body, r.is_total = false ∧ r.is_difference = false ∧
        r.head_of_account ≠ "" ∧
        (∃ t ∈ [(⟨⟨2024, 1, 1⟩, "Cash", "", "", "", 100, 0, 1⟩ : Transaction)],
          t.company_id = 1 ∧ t.head_of_account = r.head_of_account ∧ inPeriod none t) ∧
        tbBalance (tbRows [⟨⟨2024, 1, 1⟩, "Cash", "", "", "", 100, 0, 1⟩] 1 none)
          r.head_of_account ≠ 0 ∧
        (0 < tbBalance (tbRows [⟨⟨2024, 1, 1⟩, "Cash", "", "", "", 100, 0, 1⟩] 1 none)
            r.head_of_account →
          r.debit = tbBalance (tbRows [⟨⟨2024, 1, 1⟩, "Cash", "", "", "", 100, 0, 1⟩] 1 none)
            r.head_of_account ∧ r.credit = 0) ∧
        (tbBalance (tbRows [⟨⟨2024, 1, 1⟩, "Cash", "", "", "", 100, 0, 1⟩] 1 none)
            r.head_of_account < 0 →
          r.debit = 0 ∧
          r.credit = -tbBalance (tbRows [⟨⟨2024, 1, 1⟩, "Cash", "", "", "", 100, 0, 1⟩] 1 none)
            r.head_of_account)) ∧
      (∀ t ∈ [(⟨⟨2024, 1, 1⟩, "Cash", "", "", "", 100, 0, 1⟩ : Transaction)],
        t.company_id = 1 → t.head_of_account ≠ "" → inPeriod none t →
        tbBalance (tbRows [⟨⟨2024, 1, 1⟩, "Cash", "", "", "", 100, 0, 1⟩] 1 none)
          t.head_of_account ≠ 0 →
        ∃ r ∈ body, r.head_of_account = t.head_of_account) ∧
      List.Sorted StrLe (body.map (fun r => r.head_of_account)) ∧
      (body.map (fun r => r.head_of_account)).Nodup ∧
      ((body.map (fun r => r.debit)).sum = (body.map (fun r => r.credit)).sum →
        get_trial_balance_data [⟨⟨2024, 1, 1⟩, "Cash", "", "", "", 100, 0, 1⟩] 1 "all" =
          .ok (body ++ [totalRow ((body.map (fun r => r.debit)).sum)
            ((body.map (fun r => r.credit)).sum)])) ∧
      ((body.map (fun r => r.debit)).sum ≠ (body.map (fun r => r.credit)).sum →
        get_trial_balance_data [⟨⟨2024, 1, 1⟩, "Cash", "", "", "", 100, 0, 1⟩] 1 "all" =
          .ok (body ++ [totalRow ((body.map (fun r => r.debit)).sum)
              ((body.map (fun r => r.credit)).sum),
            differenceRow ((body.map (fun r => r.debit)).sum)
              ((body.map (fun r => r.credit)).sum)])) :=
  c2_trial_balance [⟨⟨2024, 1, 1⟩, "Cash", "", "", "", 100, 0, 1⟩] 1 "all" none (by rfl)

end ClaimC2

section Ingestion

/-- The condition of the ingestion loops on a filtered row: the raw head
cell is present and not the empty string (checked before stripping). -/
def loopCond (r : RawRow) : Bool := r.head_of_account.getD "" != ""

/-- Whether the coerced debit or credit cell converts without raising. -/
def cellOk (c : Cell) : Bool := (floatOfCell (fillCell c)).isSome

/-- The transaction built from one surviving row, given the normalization
map: canonical head from the map, defaulted text fields, coerced amounts. -/
def rowToTx (m : List (String × String)) (r : RawRow) : TxData :=
  { date := r.date.getD ⟨0, 0, 0⟩
    head_of_account := (dictLookup m (pyUpper (pyStrip (r.head_of_account.getD "")))).getD ""
    category := fillStr r.category
    description := fillStr r.description
    reference := fillStr r.reference
    debit := (floatOfCell (fillCell r.debit)).getD 0
    credit := (floatOfCell (fillCell r.credit)).getD 0 }

/-- The first-occurrence spelling that the spec describes: the stripped,
original-case head of the first row (among the filtered rows, in file
order) whose stripped uppercase head equals the key.  This is the
spec-side description of the normalization map, to be compared with the
map the source builds. -/
def firstSpelling (rs : List RawRow) (key : String) : Option String :=
  (rs.find? (fun r => r.head_of_account.getD "" != "" &&
    pyUpper (pyStrip (r.head_of_account.getD "")) == key)).map
    (fun r => pyStrip (r.head_of_account.getD ""))

lemma dictLookup_nil (key : String) : dictLookup [] key = none := rfl

lemma dictLookup_append (m m2 : List (String × String)) (key : String) :
    dictLookup (m ++ m2) key = (dictLookup m key).or (dictLookup m2 key) := by
  unfold dictLookup
  rw [List.find?_append]
  rcases h : m.find? (fun e => e.1 == key) with _ | e <;> simp [h]

lemma buildMap_lookup : ∀ (rs : List RawRow) (m : List (String × String)) (key : String),
    dictLookup (buildMap m rs) key = (dictLookup m key).or (firstSpelling rs key) := by
  intro rs
  induction rs with
  | nil =>
    intro m key
    simp [buildMap, firstSpelling]
  | cons r rs ih =>
    intro m key
    rcases hr : r.head_of_account with _ | h
    · simp only [buildMap, hr]
      have hfs : firstSpelling (r :: rs) key = firstSpelling rs key := by
        unfold firstSpelling
        rw [List.find?_cons_of_neg _ (by simp [hr])]
      rw [hfs]
      exact ih m key
    · by_cases he : h = ""
      · subst he
        simp only [buildMap, hr, ne_eq, not_true_eq_false, if_false]
        have hfs : firstSpelling (r :: rs) key = firstSpelling rs key := by
          unfold firstSpelling
          rw [List.find?_cons_of_neg _ (by simp [hr])]
        rw [hfs]
        exact ih m key
      · simp only [buildMap, hr]
        rw [if_pos he]
        by_cases hk : pyUpper (pyStrip h) = key
        · subst hk
          have hfs : firstSpelling (r :: rs) (pyUpper (pyStrip h)) = some (pyStrip h) := by
            unfold firstSpelling
            rw [List.find?_cons_of_pos _ (by simp [hr, he])]
            simp [hr]
          rw [hfs]
          rcases hm : dictLookup m (pyUpper (pyStrip h)) with _ | v
          · simp only [Option.isSome_none, Bool.false_eq_true, if_false]
            rw [ih, dictLookup_append, hm]
            have hsing : dictLookup [(pyUpper (pyStrip h), pyStrip h)]
                (pyUpper (pyStrip h)) = some (pyStrip h) := by
              unfold dictLookup
              simp [List.find?]
            rw [hsing]
            simp
          · simp only [Option.isSome_some, if_true]
            rw [ih, hm]
            simp
        · have hfs : firstSpelling (r :: rs) key = firstSpelling rs key := by
            unfold firstSpelling
            rw [List.find?_cons_of_neg _ (by simp [hr, hk])]
          rw [hfs]
          rcases hm : dictLookup m (pyUpper (pyStrip h)) with _ | v
          · simp only [Option.isSome_none, Bool.false_eq_true, if_false]
            rw [ih, dictLookup_append]
            have hbeq : (pyUpper (pyStrip h) == key) = false :=
              beq_eq_false_iff_ne.mpr hk
            have hsing : dictLookup [(pyUpper (pyStrip h), pyStrip h)] key = none := by
              unfold dictLookup
              simp [List.find?, hbeq]
            rw [hsing]
            simp
          · simp only [Option.isSome_some, if_true]
            exact ih m key

lemma buildMap_lookup_nil (rs : List RawRow) (key : String) :
    dictLookup (buildMap [] rs) key = firstSpelling rs key := by
  rw [buildMap_lookup rs [] key, dictLookup_nil]
  rfl

lemma firstSpelling_spec {rs : List RawRow} {key v : String}
    (h : firstSpelling rs key = some v) :
    pyUpper v = key ∧
    ∃ r ∈ rs, ∃ hh : String, r.head_of_account = some hh ∧ hh ≠ "" ∧ v = pyStrip hh := by
  unfold firstSpelling at h
  rcases hf : rs.find? (fun r => r.head_of_account.getD "" != "" &&
      pyUpper (pyStrip (r.head_of_account.getD "")) == key) with _ | r
  · rw [hf] at h
    cases h
  · rw [hf] at h
    have hcond := List.find?_some hf
    have hmem := List.mem_of_find?_eq_some hf
    simp only [Bool.and_eq_true, bne_iff_ne, ne_eq, beq_iff_eq] at hcond
    simp at h
    subst h
    refine ⟨hcond.2, r, hmem, r.head_of_account.getD "", ?_, hcond.1, rfl⟩
    rcases hr : r.head_of_account with _ | hh
    · rw [hr] at hcond
      simp at hcond
    · simp [hr]

lemma firstSpelling_isSome {rs : List RawRow} {r : RawRow} (hmem : r ∈ rs)
    (hcond : loopCond r) :
    (firstSpelling rs (pyUpper (pyStrip (r.head_of_account.getD "")))).isSome := by
  unfold firstSpelling
  have hfind : (rs.find? (fun r2 => r2.head_of_account.getD "" != "" &&
      pyUpper (pyStrip (r2.head_of_account.getD "")) ==
        pyUpper (pyStrip (r.head_of_account.getD "")))).isSome := by
    rw [List.find?_isSome]
    refine ⟨r, hmem, ?_⟩
    simp only [loopCond] at hcond
    simp [hcond]
  obtain ⟨r2, hr2⟩ := Option.isSome_iff_exists.mp hfind
  rw [hr2]
  rfl

lemma convertRows_ok_map : ∀ (m : List (String × String)) (rs : List RawRow)
    (out : List TxData), convertRows m rs = .ok out →
    out = (rs.filter loopCond).map (rowToTx m) := by
  intro m rs
  induction rs with
  | nil =>
    intro out h
    rw [convertRows] at h
    cases h
    rfl
  | cons r rs ih =>
    intro out h
    rcases hr : r.head_of_account with _ | hh
    · simp only [convertRows, hr] at h
      rw [List.filter_cons_of_neg (by simp [loopCond, hr])]
      exact ih out h
    · by_cases he : hh = ""
      · subst he
        simp only [convertRows, hr, if_pos rfl] at h
        rw [List.filter_cons_of_neg (by simp [loopCond, hr])]
        exact ih out h
      · simp only [convertRows, hr] at h
        rw [if_neg he] at h
        rcases hd : floatOfCell (fillCell r.debit) with _ | d <;> rw [hd] at h
        · cases h
        · rcases hc : floatOfCell (fillCell r.credit) with _ | c <;> rw [hc] at h
          · cases h
          · rcases hrec : convertRows m rs with e | ts <;> rw [hrec] at h
            · cases h
            · simp only [Except.map, Except.ok.injEq] at h
              subst h
              rw [List.filter_cons_of_pos (by simp [loopCond, hr, he])]
              rw [List.map_cons, ← ih ts hrec]
              congr 1
              simp [rowToTx, hr, hd, hc]

lemma convertRows_ok_iff : ∀ (m : List (String × String)) (rs : List RawRow),
    (∃ out, convertRows m rs = .ok out) ↔
      ∀ r ∈ rs, loopCond r → cellOk r.debit ∧ cellOk r.credit := by
  intro m rs
  induction rs with
  | nil =>
    simp [convertRows]
  | cons r rs ih =>
    rcases hr : r.head_of_account with _ | hh
    · simp only [convertRows, hr]
      rw [ih]
      constructor
      · intro hall t ht hl
        rcases List.mem_cons.mp ht with rfl | ht2
        · simp [loopCond, hr] at hl
        · exact hall t ht2 hl
      · intro hall t ht hl
        exact hall t (List.mem_cons_of_mem r ht) hl
    · by_cases he : hh = ""
      · subst he
        simp only [convertRows, hr, eq_self_iff_true, if_true]
        rw [ih]
        constructor
        · intro hall t ht hl
          rcases List.mem_cons.mp ht with rfl | ht2
          · simp [loopCond, hr] at hl
          · exact hall t ht2 hl
        · intro hall t ht hl
          exact hall t (List.mem_cons_of_mem r ht) hl
      · simp only [convertRows, hr]
        rw [if_neg he]
        constructor
        · intro hex t ht hl
          obtain ⟨out, hout⟩ := hex
          rcases hd : floatOfCell (fillCell r.debit) with _ | d <;> rw [hd] at hout
          · cases hout
          · rcases hc : floatOfCell (fillCell r.credit) with _ | c <;> rw [hc] at hout
            · cases hout
            · rcases List.mem_cons.mp ht with rfl | ht2
              · exact ⟨by simp [cellOk, hd], by simp [cellOk, hc]⟩
              · rcases hrec : convertRows m rs with e | ts <;> rw [hrec] at hout
                · cases hout
                · exact (ih.mp ⟨ts, hrec⟩) t ht2 hl
        · intro hall
          have hhead : cellOk r.debit ∧ cellOk r.credit :=
            hall r (List.mem_cons_self r rs) (by simp [loopCond, hr, he])
          obtain ⟨d, hd⟩ := Option.isSome_iff_exists.mp hhead.1
          obtain ⟨c, hc⟩ := Option.isSome_iff_exists.mp hhead.2
          rw [hd, hc]
          obtain ⟨ts, hts⟩ := ih.mpr (fun t ht hl =>
            hall t (List.mem_cons_of_mem r ht) hl)
          rw [hts]
          exact ⟨_, rfl⟩

lemma process_ok_map {f : ExcelFile} {out : List TxData}
    (h : process_excel_data f = .ok out) :
    requiredColumns.filter (fun c => !(f.columns.contains c)) = [] ∧
    convertRows (buildMap [] (f.rows.filter keptRow)) (f.rows.filter keptRow) =
      .ok out ∧
    out = ((f.rows.filter keptRow).filter loopCond).map
      (rowToTx (buildMap [] (f.rows.filter keptRow))) := by
  rw [process_excel_data] at h
  by_cases hm : requiredColumns.filter (fun c => !(f.columns.contains c)) = []
  · rw [if_neg (fun hcon => hcon hm)] at h
    refine ⟨hm, ?_⟩
    rcases hc : convertRows (buildMap [] (f.rows.filter keptRow))
        (f.rows.filter keptRow) with e | ts <;> rw [hc] at h
    · cases h
    · cases h
      exact ⟨rfl, convertRows_ok_map _ _ _ hc⟩
  · rw [if_pos (by simpa using hm)] at h
    cases h

end Ingestion

section ClaimC8

/-- C8 as stated is false: a row whose head-of-account cell holds a single
space passes the row filter (the check is against the raw value, before
stripping) and is persisted with an empty stored head. -/
theorem c8_counterexample :
    process_excel_data ⟨["Date", "Head of Accounts", "Debit", "Credit"],
        [⟨some ⟨2024, 1, 1⟩, some " ", none, none, none, .num 5, .nan⟩]⟩ =
      .ok [⟨⟨2024, 1, 1⟩, "", "", "", "", 5, 0⟩] ∧
    (⟨⟨2024, 1, 1⟩, "", "", "", "", 5, 0⟩ : TxData).head_of_account = "" :=
  ⟨by rfl, by rfl⟩

/-- C8 amended: a source row is discarded (from count and storage) exactly
when its date is unparseable or its raw head-of-account is missing or the
empty string; every persisted transaction's head is the stripped value of
some surviving nonempty raw head — which is the empty string when that raw
head was whitespace-only, so the non-empty-head invariant fails only in
that case. -/
theorem c8_row_filter (f : ExcelFile) (out : List TxData)
    (h : process_excel_data f = .ok out) :
    out.length = ((f.rows.filter keptRow).filter loopCond).length ∧
    ∀ t ∈ out, ∃ r ∈ f.rows, r.date.isSome ∧
      ∃ hh : String, r.head_of_account = some hh ∧ hh ≠ "" ∧
        t.head_of_account = pyStrip hh := by
  obtain ⟨hcols, hconv, hmap⟩ := process_ok_map h
  constructor
  · rw [hmap, List.length_map]
  · intro t ht
    rw [hmap] at ht
    obtain ⟨r, hr, rfl⟩ := List.mem_map.mp ht
    have hrk := List.mem_filter.mp hr
    have hcond := hrk.2
    have hkept := List.mem_filter.mp hrk.1
    have hlook := buildMap_lookup_nil (f.rows.filter keptRow)
      (pyUpper (pyStrip (r.head_of_account.getD "")))
    have hsome := firstSpelling_isSome hrk.1 hcond
    obtain ⟨v, hv⟩ := Option.isSome_iff_exists.mp hsome
    obtain ⟨hkey, r2, hr2, hh2, hhead2, hne2, hv2⟩ := firstSpelling_spec hv
    have hr2mem := List.mem_filter.mp hr2
    refine ⟨r2, hr2mem.1, ?_, hh2, hhead2, hne2, ?_⟩
    · have := hr2mem.2
      simp only [keptRow, Bool.and_eq_true] at this
      exact this.1
    · show (dictLookup (buildMap [] (f.rows.filter keptRow))
        (pyUpper (pyStrip (r.head_of_account.getD "")))).getD "" = pyStrip hh2
      rw [hlook, hv, hv2]
      rfl

/-- Witness for C8 amended at a concrete two-row file where one row has an
unparseable date and is discarded. -/
theorem c8_row_filter_witness :
    (process_excel_data ⟨["Date", "Head of Accounts", "Debit", "Credit"],
        [⟨some ⟨2024, 1, 1⟩, some "Cash", none, none, none, .num 5, .nan⟩,
         ⟨none, some "Bank", none, none, none, .num 7, .nan⟩]⟩ =
      .ok [⟨⟨2024, 1, 1⟩, "Cash", "", "", "", 5, 0⟩]) ∧
    ([(⟨⟨2024, 1, 1⟩, "Cash", "", "", "", 5, 0⟩ : TxData)].length =
      (([⟨some ⟨2024, 1, 1⟩, some "Cash", none, none, none, .num 5, .nan⟩,
         ⟨none, some "Bank", none, none, none, .num 7, .nan⟩].filter
        keptRow).filter loopCond).length) :=
  ⟨by rfl,
    (c8_row_filter ⟨["Date", "Head of Accounts", "Debit", "Credit"],
      [⟨some ⟨2024, 1, 1⟩, some "Cash", none, none, none, .num 5, .nan⟩,
       ⟨none, some "Bank", none, none, none, .num 7, .nan⟩]⟩
      [⟨⟨2024, 1, 1⟩, "Cash", "", "", "", 5, 0⟩] (by rfl)).1⟩

end ClaimC8

section ClaimC5

/-- C5: first-occurrence-wins case folding of the head-of-account names.
The stored heads are, row for row, the first-seen stripped spelling of the
case-class of each surviving row; consequently every stored head is the
fixed point of the first-spelling map at its own uppercase key, and any
two stored transactions whose heads agree case-insensitively carry the
very same spelling. -/
theorem c5_case_fold (f : ExcelFile) (out : List TxData)
    (h : process_excel_data f = .ok out) :
    out.map (fun t => t.head_of_account) =
      ((f.rows.filter keptRow).filter loopCond).map (fun r =>
        (firstSpelling (f.rows.filter keptRow)
          (pyUpper (pyStrip (r.head_of_account.getD "")))).getD "") ∧
    (∀ t ∈ out, firstSpelling (f.rows.filter keptRow) (pyUpper t.head_of_account) =
      some t.head_of_account) ∧
    (∀ t1 ∈ out, ∀ t2 ∈ out,
      pyUpper t1.head_of_account = pyUpper t2.head_of_account →
      t1.head_of_account = t2.head_of_account) := by
  obtain ⟨hcols, hconv, hmap⟩ := process_ok_map h
  have hsnd : ∀ t ∈ out, firstSpelling (f.rows.filter keptRow)
      (pyUpper t.head_of_account) = some t.head_of_account := by
    intro t ht
    rw [hmap] at ht
    obtain ⟨r, hr, rfl⟩ := List.mem_map.mp ht
    have hrf := List.mem_filter.mp hr
    have hsome := firstSpelling_isSome hrf.1 hrf.2
    obtain ⟨v, hv⟩ := Option.isSome_iff_exists.mp hsome
    obtain ⟨hkey, -⟩ := firstSpelling_spec hv
    have hhead : (rowToTx (buildMap [] (f.rows.filter keptRow)) r).head_of_account = v := by
      show (dictLookup (buildMap [] (f.rows.filter keptRow))
        (pyUpper (pyStrip (r.head_of_account.getD "")))).getD "" = v
      rw [buildMap_lookup_nil, hv]
      rfl
    rw [hhead, hkey]
    exact hv
  refine ⟨?_, hsnd, ?_⟩
  · rw [hmap, List.map_map]
    apply List.map_congr_left
    intro r hr
    have hrf := List.mem_filter.mp hr
    show (dictLookup (buildMap [] (f.rows.filter keptRow))
      (pyUpper (pyStrip (r.head_of_account.getD "")))).getD "" = _
    rw [buildMap_lookup_nil]
  · intro t1 ht1 t2 ht2 hci
    have h1 := hsnd t1 ht1
    have h2 := hsnd t2 ht2
    rw [hci] at h1
    rw [h2] at h1
    exact ((Option.some.injEq _ _ ▸ h1 : _) : _ = _).symm

/-- Witness for C5 at a file holding the heads Cash, CASH and cash: the
first conjunct instantiated shows all three stored rows carry the first
spelling. -/
theorem c5_case_fold_witness :
    ([(⟨⟨2024, 1, 1⟩, "Cash", "", "", "", 100, 0⟩ : TxData),
      ⟨⟨2024, 1, 5⟩, "Cash", "", "", "", 0, 40⟩,
      ⟨⟨2024, 1, 3⟩, "Cash", "", "", "", 1, 0⟩].map (fun t => t.head_of_account)) =
      ((([⟨some ⟨2024, 1, 1⟩, some "Cash", none, none, none, .num 100, .nan⟩,
          ⟨some ⟨2024, 1, 5⟩, some "CASH", none, none, none, .nan, .num 40⟩,
          ⟨some ⟨2024, 1, 3⟩, some "cash", none, none, none, .num 1, .nan⟩] :
          List RawRow).filter keptRow).filter loopCond).map (fun r =>
        (firstSpelling (([⟨some ⟨2024, 1, 1⟩, some "Cash", none, none, none, .num 100, .nan⟩,
          ⟨some ⟨2024, 1, 5⟩, some "CASH", none, none, none, .nan, .num 40⟩,
          ⟨some ⟨2024, 1, 3⟩, some "cash", none, none, none, .num 1, .nan⟩] :
          List RawRow).filter keptRow)
          (pyUpper (pyStrip (r.head_of_account.getD "")))).getD "") :=
  (c5_case_fold ⟨["Date", "Head of Accounts", "Debit", "Credit"],
      [⟨some ⟨2024, 1, 1⟩, some "Cash", none, none, none, .num 100, .nan⟩,
       ⟨some ⟨2024, 1, 5⟩, some "CASH", none, none, none, .nan, .num 40⟩,
       ⟨some ⟨2024, 1, 3⟩, some "cash", none, none, none, .num 1, .nan⟩]⟩
    [⟨⟨2024, 1, 1⟩, "Cash", "", "", "", 100, 0⟩,
     ⟨⟨2024, 1, 5⟩, "Cash", "", "", "", 0, 40⟩,
     ⟨⟨2024, 1, 3⟩, "Cash", "", "", "", 1, 0⟩] (by rfl)).1

end ClaimC5

section ClaimC7

/-- C7 as stated is false: a row that passes the row filter but whose
Debit cell holds the non-numeric nonempty string abc makes the whole
ingestion fail instead of being coerced to zero. -/
theorem c7_counterexample :
    process_excel_data ⟨["Date", "Head of Accounts", "Debit", "Credit"],
        [⟨some ⟨2024, 1, 1⟩, some "Cash", none, none, none, .str "abc", .nan⟩]⟩ =
      .error "Failed to process Excel data: could not convert string to float" ∧
    keptRow ⟨some ⟨2024, 1, 1⟩, some "Cash", none, none, none, .str "abc", .nan⟩ = true ∧
    loopCond ⟨some ⟨2024, 1, 1⟩, some "Cash", none, none, none, .str "abc", .nan⟩ = true :=
  ⟨by rfl, by rfl, by rfl⟩

/-- C7 amended: a missing (NaN) Debit or Credit cell is coerced to 0.0, as
is a numeric-zero or empty-string cell, and a numeric string is parsed;
ingestion succeeds exactly when the columns are present and every
surviving row's coerced cells convert, and then the stored amounts are the
coerced cell values row for row — but a non-empty non-numeric string cell
fails the whole ingestion rather than being recovered locally. -/
theorem c7_numeric_coercion (f : ExcelFile) :
    floatOfCell (fillCell Cell.nan) = some 0 ∧
    ((∃ out, process_excel_data f = .ok out) ↔
      (requiredColumns.filter (fun c => !(f.columns.contains c)) = [] ∧
       ∀ r ∈ f.rows.filter keptRow, loopCond r →
         cellOk r.debit ∧ cellOk r.credit)) ∧
    ∀ out, process_excel_data f = .ok out →
      out.map (fun t => t.debit) =
        ((f.rows.filter keptRow).filter loopCond).map
          (fun r => (floatOfCell (fillCell r.debit)).getD 0) ∧
      out.map (fun t => t.credit) =
        ((f.rows.filter keptRow).filter loopCond).map
          (fun r => (floatOfCell (fillCell r.credit)).getD 0) := by
  refine ⟨rfl, ⟨?_, ?_⟩, ?_⟩
  · intro hex
    obtain ⟨out, hout⟩ := hex
    obtain ⟨hcols, hconv, hmap⟩ := process_ok_map hout
    exact ⟨hcols, (convertRows_ok_iff _ _).mp ⟨out, hconv⟩⟩
  · intro hc
    obtain ⟨ts, hts⟩ := (convertRows_ok_iff
      (buildMap [] (f.rows.filter keptRow)) (f.rows.filter keptRow)).mpr hc.2
    refine ⟨ts, ?_⟩
    rw [process_excel_data]
    rw [if_neg (fun hcon => hcon hc.1)]
    rw [hts]
  · intro out hout
    obtain ⟨hcols, hconv, hmap⟩ := process_ok_map hout
    constructor
    · rw [hmap, List.map_map]
      rfl
    · rw [hmap, List.map_map]
      rfl

/-- Witness for C7: the success characterization instantiated at a
concrete file whose only numeric cell is missing. -/
theorem c7_numeric_coercion_witness :
    ∃ out, process_excel_data ⟨["Date", "Head of Accounts", "Debit", "Credit"],
      [⟨some ⟨2024, 1, 1⟩, some "Cash", none, none, none, .nan, .nan⟩]⟩ = .ok out :=
  (c7_numeric_coercion ⟨["Date", "Head of Accounts", "Debit", "Credit"],
      [⟨some ⟨2024, 1, 1⟩, some "Cash", none, none, none, .nan, .nan⟩]⟩).2.1.mpr
    ⟨by rfl, by decide⟩

end ClaimC7

end FAS
